import Mathlib

/-!
Verification of the msvc_notificaciones event-to-delivery pipeline.

The definitions below are a shallow embedding of the Python source:

* `app/services/notification_service.py` — preference resolution
  (`_should_send_notification`), template rendering (`_replace_placeholders`,
  `_render_template`), orchestration (`process_event`), delivery
  (`_send_notification`) and the retry state machine
  (`_handle_failed_notification`);
* `app/consumers/notification_consumer.py` — the ingestion callback
  `process_notification_event` and its ack/nack discipline;
* `app/websockets/connection_manager.py` — the realtime connection registry.

Python strings are modelled as `List Char`; Python `dict`s as association
lists in insertion order; Python truthiness of optional strings (`None` and
`""` are falsy) is modelled explicitly. Recursive scans over strings are
written with an explicit fuel argument (initialised to the string length) so
that every definition is structurally recursive and kernel-evaluable.
-/

namespace Msvc

/-- A Python string, modelled as its list of characters. -/
abbrev Str := List Char

/-- `NotificationType` enum from `app/models/notification.py`. -/
inductive NotificationType where
| email
| push
deriving DecidableEq

/-- `.value` of the enum member: the raw channel string. -/
def NotificationType.value : NotificationType → String
| .email => "email"
| .push => "push"

/-- `NotificationStatus` enum from `app/models/notification.py`. -/
inductive NotificationStatus where
| pending
| sent
| failed
| retrying
deriving DecidableEq

/-- `NotificationPriority` enum from `app/models/notification.py`. -/
inductive NotificationPriority where
| low
| normal
| high
| urgent
deriving DecidableEq

/-- Python truthiness of an optional string: `None` and `""` are falsy. -/
def optTruthy : Option String → Bool
| none => false
| some s => s ≠ ""

/-- Python `a or b` on optional strings: returns `a` if truthy, else `b`. -/
def orTruthy (a b : Option String) : Option String :=
if optTruthy a then a else b

/-- `UserNotificationPreference` row (the fields the delivery path reads).
`email_enabled`/`push_enabled` are stored as 0/1 integers; only their
truthiness is ever read, so they are modelled as `Bool`.
`event_preferences` is a JSON object `event_type ↦ channel-name ↦ bool`,
modelled as nested association lists. -/
structure UserNotificationPreference where
  email_enabled : Bool
  push_enabled : Bool
  fcm_token : Option String
  event_preferences : List (String × List (String × Bool))
deriving DecidableEq

/-- `NotificationTemplate` row (the fields the delivery path reads).
`subject_template`/`title_template` are nullable columns; `body_template`
is required. Template text is carried as `Str`. -/
structure NotificationTemplate where
  event_type : String
  notification_type : NotificationType
  subject_template : Option Str
  title_template : Option Str
  body_template : Str
  priority : NotificationPriority
  is_active : Bool
deriving DecidableEq

/-- `NotificationEvent` schema (`app/schemas/notification.py`): the canonical
input to the orchestrator. `data` carries the event payload with each value
already in its `str(value)` form, since the pipeline only ever consumes the
stringified value. -/
structure NotificationEvent where
  user_id : String
  user_email : Option String
  fcm_token : Option String
  event_type : String
  data : List (Str × Str)
  priority : NotificationPriority
deriving DecidableEq

/-- `NotificationService._should_send_notification`
(`notification_service.py` lines 118–141), line by line:
no preference record → `True`; a disabled global flag for the template's
channel → early `return False`; otherwise consult
`event_preferences[event_type][channel]` and return that boolean when
present; else `True`. -/
def should_send_notification (preferences : Option UserNotificationPreference)
    (template : NotificationTemplate) (event_type : String) : Bool :=
match preferences with
| none => true
| some prefs =>
  if template.notification_type = NotificationType.email ∧ ¬ prefs.email_enabled then
    false
  else if template.notification_type = NotificationType.push ∧ ¬ prefs.push_enabled then
    false
  else
    match prefs.event_preferences.lookup event_type with
    | some event_pref =>
      match event_pref.lookup template.notification_type.value with
      | some b => b
      | none => true
    | none => true

/-- Fuelled scan of Python `str.replace(old, new)` for a nonempty pattern:
left to right; at a match of `pat`, emit `rep` and continue after the match;
otherwise emit the current character. The fuel only serves structural
recursion and is irrelevant once it reaches the string length. -/
def replaceGo (pat rep : Str) : Nat → Str → Str
| _, [] => []
| 0, s => s
| fuel + 1, c :: rest =>
  if pat <+: (c :: rest) ∧ pat ≠ [] then
    rep ++ replaceGo pat rep fuel ((c :: rest).drop pat.length)
  else
    c :: replaceGo pat rep fuel rest

/-- One `result.replace("{key}", value)` step of `_replace_placeholders`:
Python `str.replace` for a nonempty pattern. (Python's special treatment of
an empty pattern never arises: every pattern is `"{" + key + "}"`.) -/
def replaceL (pat rep s : Str) : Str :=
replaceGo pat rep s.length s

/-- `NotificationService._replace_placeholders` (lines 158–164): fold over
the data in insertion order, each step replacing all occurrences of
`"{key}"` with the value's string form. -/
def replace_placeholders (template : Str) (data : List (Str × Str)) : Str :=
data.foldl (fun res kv => replaceL ('\x7b' :: (kv.1 ++ ['\x7d'])) kv.2 res) template

/-- The dict returned by `_render_template`: `subject`/`title` keys are
present only when the corresponding template string was truthy. -/
structure Rendered where
  subject : Option Str
  title : Option Str
  body : Str
deriving DecidableEq

/-- `NotificationService._render_template` (lines 143–156): render
subject/title only when the template string is truthy (non-null, non-empty);
body always. -/
def render_template (template : NotificationTemplate) (data : List (Str × Str)) :
    Rendered :=
{ subject :=
    match template.subject_template with
    | some s => if s ≠ [] then some (replace_placeholders s data) else none
    | none => none
  title :=
    match template.title_template with
    | some s => if s ≠ [] then some (replace_placeholders s data) else none
    | none => none
  body := replace_placeholders template.body_template data }

/-- Modelled from the spec (§4.1): the first data entry whose placeholder
`"{key}"` starts at the head of `s`. -/
def specFind (data : List (Str × Str)) (s : Str) : Option (Str × Str) :=
data.find? (fun kv => decide (('\x7b' :: (kv.1 ++ ['\x7d'])) <+: s))

/-- Fuelled scan for `renderSpec`. -/
def renderGo (data : List (Str × Str)) : Nat → Str → Str
| _, [] => []
| 0, s => s
| fuel + 1, c :: rest =>
  match specFind data (c :: rest) with
  | some kv => kv.2 ++ renderGo data fuel ((c :: rest).drop (kv.1.length + 2))
  | none => c :: renderGo data fuel rest

/-- Modelled from the spec (§4.1): simultaneous single-pass substitution —
every occurrence of a `{key}` placeholder whose key is present in the data
map is replaced with the value's string form, and everything else (including
`{key}` placeholders whose key is absent from the data map) is left
verbatim. This is the renderer the spec's words describe; the source's
`_replace_placeholders` is compared against it. -/
def renderSpec (data : List (Str × Str)) (s : Str) : Str :=
renderGo data s.length s

/-- A segment of a brace-disciplined template: either a literal chunk with
no brace characters, or a `{key}` placeholder with a brace-free key. -/
inductive Seg where
| lit (chunk : Str)
| hole (key : Str)
deriving DecidableEq

/-- A string containing no brace characters. -/
def braceFree (s : Str) : Prop := '\x7b' ∉ s ∧ '\x7d' ∉ s

instance (s : Str) : Decidable (braceFree s) :=
inferInstanceAs (Decidable ('\x7b' ∉ s ∧ '\x7d' ∉ s))

/-- Well-formedness of a segment: its text is brace-free. -/
def Seg.wf : Seg → Prop
| .lit c => braceFree c
| .hole k => braceFree k

instance : (seg : Seg) → Decidable seg.wf
| .lit c => inferInstanceAs (Decidable (braceFree c))
| .hole k => inferInstanceAs (Decidable (braceFree k))

/-- Flatten a segment list back into template text. -/
def flats : List Seg → Str
| [] => []
| Seg.lit c :: L => c ++ flats L
| Seg.hole k :: L => '\x7b' :: (k ++ '\x7d' :: flats L)

/-- Substitute a single key throughout a segment list. -/
def subst1 (k v : Str) : Seg → Seg
| .lit c => .lit c
| .hole w => if w = k then .lit v else .hole w

/-- Simultaneous substitution of a whole data map on one segment. -/
def substSeg (data : List (Str × Str)) : Seg → Seg
| .lit c => .lit c
| .hole w =>
  match data.find? (fun kv => decide (kv.1 = w)) with
  | some kv => .lit kv.2
  | none => .hole w

/-- `Notification` row (the fields the delivery path reads or writes).
Timestamps are modelled as `Nat` (seconds); `data` is the JSON payload
column, nullable, an association list of stringified values. -/
structure Notification where
  user_id : String
  notification_type : NotificationType
  event_type : String
  recipient_email : Option String
  recipient_fcm_token : Option String
  subject : Option Str
  title : Option Str
  body : Str
  data : Option (List (Str × Str))
  priority : NotificationPriority
  status : NotificationStatus
  retry_count : Nat
  max_retries : Nat
  next_retry_at : Option Nat
  error_message : Option String
  sent_at : Option Nat
deriving DecidableEq

/-- `NotificationService._handle_failed_notification`
(`notification_service.py` lines 288–315): increment `retry_count`; if the
new count is below the row's `max_retries`, set status RETRYING and
`next_retry_at = now + retry_delay * retry_count` (linear backoff, with the
service's `self.retry_delay`); otherwise set status FAILED (`next_retry_at`
untouched). Finally, the Python `if error_message:` guard overwrites
`error_message` only when a truthy (non-`None`, non-empty) message was
passed; the parameter defaults to `None`. -/
def handle_failed_notification (retry_delay now : Nat)
    (n : Notification) (error_message : Option String) : Notification :=
{ n with
  retry_count := n.retry_count + 1
  status :=
    if n.retry_count + 1 < n.max_retries then NotificationStatus.retrying
    else NotificationStatus.failed
  next_retry_at :=
    if n.retry_count + 1 < n.max_retries then
      some (now + retry_delay * (n.retry_count + 1))
    else n.next_retry_at
  error_message :=
    match error_message with
    | some msg => if msg ≠ "" then some msg else n.error_message
    | none => n.error_message }

/-- Python dict assignment `m[k] = v`: overwrite in place when the key
exists, else append (insertion order). -/
def dictSet (m : List (Str × Str)) (k v : Str) : List (Str × Str) :=
if (m.find? (fun kv => decide (kv.1 = k))).isSome then
  m.map (fun kv => if kv.1 = k then (k, v) else kv)
else
  m ++ [(k, v)]

/-- Python dict read `m.get(k)`. -/
def dictGet (m : List (Str × Str)) (k : Str) : Option Str :=
(m.find? (fun kv => decide (kv.1 = k))).map (fun kv => kv.2)

/-- The collaborator outcomes a single `_send_notification` call observes:
whether `manager.is_user_connected` holds, whether the realtime send reports
at least one accepting connection, and the boolean results of the push and
email senders. -/
structure SendWorld where
  ws_connected : Bool
  ws_send_ok : Bool
  push_ok : Bool
  email_ok : Bool
deriving DecidableEq

/-- Result of one `_send_notification` call: the updated row plus which
transports were exercised. -/
structure SendResult where
  notification : Notification
  sent_via_websocket : Bool
  attempted_push : Bool
  attempted_email : Bool
deriving DecidableEq

/-- The status-update tail of `_send_notification` (lines 269–281): on
success set status SENT, stamp `sent_at`, and record the `sent_via`
provenance tag in the (possibly null) data payload — `"websocket"` when the
realtime path delivered, else the raw channel kind; on failure call
`_handle_failed_notification` with no error message (line 279). -/
def finishSend (retry_delay now : Nat) (n : Notification)
    (success sent_via_websocket : Bool) : Notification :=
if success then
  { n with
    status := NotificationStatus.sent
    sent_at := some now
    data := some (dictSet (n.data.getD []) "sent_via".data
      (if sent_via_websocket then "websocket".data
       else n.notification_type.value.data)) }
else
  handle_failed_notification retry_delay now n none

/-- `NotificationService._send_notification` (lines 199–281) with the
collaborator outcomes supplied by a `SendWorld`: a push notification tries
the realtime path first when the user is connected; if the realtime path did
not deliver, it falls back to FCM when the row carries a truthy token; an
email notification always goes through the email sender. -/
def send_notification (retry_delay now : Nat) (w : SendWorld) (n : Notification) :
    SendResult :=
match n.notification_type with
| NotificationType.push =>
  let sent_via_websocket := w.ws_connected && w.ws_send_ok
  let attempt_push := !sent_via_websocket && optTruthy n.recipient_fcm_token
  let success := sent_via_websocket || (attempt_push && w.push_ok)
  { notification := finishSend retry_delay now n success sent_via_websocket
    sent_via_websocket := sent_via_websocket
    attempted_push := attempt_push
    attempted_email := false }
| NotificationType.email =>
  { notification := finishSend retry_delay now n w.email_ok false
    sent_via_websocket := false
    attempted_push := false
    attempted_email := true }

/-- The `except` branch of `_send_notification` (lines 283–286): any raised
error is handled by `_handle_failed_notification` with `str(e)`. -/
def send_notification_exc (retry_delay now : Nat) (n : Notification)
    (msg : String) : Notification :=
handle_failed_notification retry_delay now n (some msg)

/-- The per-template body of `process_event` (lines 44–91): skip when the
resolver rejects; render; for an email template require a truthy
`event.user_email`, else warn and create nothing; for a push template
resolve the token as `event.fcm_token or preferences.fcm_token` (Python
truthiness) and require it truthy, else warn and create nothing; when
accepted, build the row exactly as `_create_notification` does (status
PENDING, counters at their column defaults). -/
def processTemplate (preferences : Option UserNotificationPreference)
    (event : NotificationEvent) (template : NotificationTemplate) :
    Option Notification :=
if ¬ should_send_notification preferences template event.event_type then none
else
  let rendered := render_template template event.data
  match template.notification_type with
  | NotificationType.email =>
    if optTruthy event.user_email then
      some
        { user_id := event.user_id
          notification_type := NotificationType.email
          event_type := event.event_type
          recipient_email := event.user_email
          recipient_fcm_token := none
          subject := rendered.subject
          title := none
          body := rendered.body
          data := some event.data
          priority := template.priority
          status := NotificationStatus.pending
          retry_count := 0
          max_retries := 3
          next_retry_at := none
          error_message := none
          sent_at := none }
    else none
  | NotificationType.push =>
    let fcm := orTruthy event.fcm_token
      (match preferences with | some p => p.fcm_token | none => none)
    if optTruthy fcm then
      some
        { user_id := event.user_id
          notification_type := NotificationType.push
          event_type := event.event_type
          recipient_email := none
          recipient_fcm_token := fcm
          subject := none
          title := rendered.title
          body := rendered.body
          data := some event.data
          priority := template.priority
          status := NotificationStatus.pending
          retry_count := 0
          max_retries := 3
          next_retry_at := none
          error_message := none
          sent_at := none }
    else none

/-- The list of notification rows `process_event` creates (lines 42–91) for
one event, given the preference record and the active templates fetched for
the event type, in template order. These are exactly the rows the send loop
(lines 93–94) then attempts to deliver. -/
def process_event_created (preferences : Option UserNotificationPreference)
    (event : NotificationEvent) (templates : List NotificationTemplate) :
    List Notification :=
templates.filterMap (processTemplate preferences event)

/-- The kind of Python exception escaping a processing stage. -/
inductive PyExc where
| validationError
| otherExc
deriving DecidableEq

/-- The transport signal the ingestion callback sends back to RabbitMQ. -/
inductive ConsumerOutcome where
| ack
| rejectNoRequeue
| nackRequeue
deriving DecidableEq

/-- The outermost `try/except/finally` of `NotificationService.process_event`
(lines 33–99): any exception raised by the body is caught and logged (lines
96–97); the method itself never raises. -/
def process_event_exc (body : Except PyExc Unit) : Except PyExc Unit :=
match body with
| Except.ok _ => Except.ok ()
| Except.error _ => Except.ok ()

/-- `process_notification_event` (`notification_consumer.py` lines 96–131):
`pipeline` is the combined outcome of json parsing, routing-key mapping,
shape transformation and schema validation; `orchestratorBody` is the
outcome of the body of `process_event`, which runs next. A `ValidationError`
escaping the callback is rejected without requeue (line 125); any other
escaping exception is nacked with requeue (line 130); otherwise the message
is acked (line 119). -/
def process_notification_event (pipeline : Except PyExc NotificationEvent)
    (orchestratorBody : Except PyExc Unit) : ConsumerOutcome :=
match pipeline with
| Except.error PyExc.validationError => ConsumerOutcome.rejectNoRequeue
| Except.error PyExc.otherExc => ConsumerOutcome.nackRequeue
| Except.ok _ =>
  match process_event_exc orchestratorBody with
  | Except.ok _ => ConsumerOutcome.ack
  | Except.error PyExc.validationError => ConsumerOutcome.rejectNoRequeue
  | Except.error PyExc.otherExc => ConsumerOutcome.nackRequeue

/-- The realtime registry state (`connection_manager.py`):
`active_connections`, a dict from user id to the set of open sockets
(sockets modelled by numeric ids), in insertion order. -/
structure ConnectionManager where
  active_connections : List (String × Finset Nat)
deriving DecidableEq

/-- Dict lookup `active_connections.get(user_id)`. -/
def cmLookup (st : ConnectionManager) (u : String) : Option (Finset Nat) :=
(st.active_connections.find? (fun e => decide (e.1 = u))).map (fun e => e.2)

/-- `ConnectionManager.connect` (lines 22–40): create the user's entry when
missing, then add the socket to the user's set. -/
def cmConnect (ws : Nat) (u : String) (st : ConnectionManager) : ConnectionManager :=
match cmLookup st u with
| none => ⟨st.active_connections ++ [(u, {ws})]⟩
| some s => ⟨st.active_connections.map (fun e => if e.1 = u then (u, insert ws s) else e)⟩

/-- `ConnectionManager.disconnect` (lines 42–60): discard the socket; delete
the user's entry when its set becomes empty. -/
def cmDisconnect (ws : Nat) (u : String) (st : ConnectionManager) : ConnectionManager :=
match cmLookup st u with
| none => st
| some s =>
  if s.erase ws = ∅ then ⟨st.active_connections.filter (fun e => decide (e.1 ≠ u))⟩
  else ⟨st.active_connections.map (fun e => if e.1 = u then (u, s.erase ws) else e)⟩

/-- `ConnectionManager.is_user_connected` (lines 62–72): `user_id in
active_connections and len(active_connections[user_id]) > 0`. -/
def cmIsUserConnected (u : String) (st : ConnectionManager) : Bool :=
match cmLookup st u with
| some s => decide (0 < s.card)
| none => false

/-- `ConnectionManager.send_notification` (lines 74–109), with `failing`
giving the sockets whose `send_json` raises: each failing socket is
discarded, the user's entry is deleted when no connection remains, and the
call reports whether at least one socket accepted the payload. -/
def cmSend (u : String) (failing : Finset Nat) (st : ConnectionManager) :
    Bool × ConnectionManager :=
match cmLookup st u with
| none => (false, st)
| some s =>
  (decide (0 < (s \ failing).card),
   if s \ failing = ∅ then ⟨st.active_connections.filter (fun e => decide (e.1 ≠ u))⟩
   else ⟨st.active_connections.map (fun e => if e.1 = u then (u, s \ failing) else e)⟩)

/-- `ConnectionManager.broadcast` (lines 111–142): per user, discard the
failing sockets; afterwards delete every user whose set became empty. -/
def cmBroadcast (failing : String → Finset Nat) (st : ConnectionManager) :
    ConnectionManager :=
⟨(st.active_connections.map (fun e => (e.1, e.2 \ failing e.1))).filter
  (fun e => decide (e.2 ≠ ∅))⟩

/-- The registry invariant: every listed user has a non-empty socket set. -/
def cmInv (st : ConnectionManager) : Prop :=
∀ e ∈ st.active_connections, e.2 ≠ ∅

instance (st : ConnectionManager) : Decidable (cmInv st) :=
inferInstanceAs (Decidable (∀ e ∈ st.active_connections, e.2 ≠ ∅))

/-- A concrete preference record: push disabled globally, but an explicit
event-specific override `{push: true}` for event type `"E"`. -/
def prefsPushOffOverrideOn : UserNotificationPreference :=
{ email_enabled := true
  push_enabled := false
  fcm_token := some "tok"
  event_preferences := [("E", [("push", true)])] }

/-- A concrete active push template for event type `"E"`. -/
def pushTemplateE : NotificationTemplate :=
{ event_type := "E"
  notification_type := NotificationType.push
  subject_template := none
  title_template := some ['T']
  body_template := ['B']
  priority := NotificationPriority.normal
  is_active := true }

/-- A concrete active email template for event type `"E"`. -/
def emailTemplateE : NotificationTemplate :=
{ event_type := "E"
  notification_type := NotificationType.email
  subject_template := some ['S']
  title_template := none
  body_template := ['B']
  priority := NotificationPriority.normal
  is_active := true }

/-- A concrete freshly created push notification: status PENDING,
`retry_count` 0, `max_retries` 3 (the column defaults `_create_notification`
relies on). -/
def freshNotification : Notification :=
{ user_id := "u1"
  notification_type := NotificationType.push
  event_type := "E"
  recipient_email := none
  recipient_fcm_token := some "tok"
  subject := none
  title := some ['T']
  body := ['B']
  data := none
  priority := NotificationPriority.normal
  status := NotificationStatus.pending
  retry_count := 0
  max_retries := 3
  next_retry_at := none
  error_message := none
  sent_at := none }

/-- A concrete email notification carrying a stale `error_message` from an
earlier failed attempt. -/
def staleEmailNotification : Notification :=
{ freshNotification with
  notification_type := NotificationType.email
  recipient_email := some "a@b.com"
  recipient_fcm_token := none
  error_message := some "previous-error" }

/-- A world where every transport fails. -/
def allFailWorld : SendWorld :=
{ ws_connected := false, ws_send_ok := false, push_ok := false, email_ok := false }

/-- A world where the user has an active realtime connection that accepts
the payload, while both token-based senders would fail. -/
def wsWorld : SendWorld :=
{ ws_connected := true, ws_send_ok := true, push_ok := false, email_ok := false }

/-- A concrete event with no user email and a device token. -/
def evNoEmail : NotificationEvent :=
{ user_id := "u1"
  user_email := none
  fcm_token := some "tok"
  event_type := "E"
  data := []
  priority := NotificationPriority.normal }

/-- The active templates for `"E"`: one per channel. -/
def templatesE : List NotificationTemplate := [emailTemplateE, pushTemplateE]

/-- The push row `process_event` creates for `evNoEmail` and `templatesE`. -/
def pushRowNoEmail : Notification :=
{ user_id := "u1"
  notification_type := NotificationType.push
  event_type := "E"
  recipient_email := none
  recipient_fcm_token := some "tok"
  subject := none
  title := some ['T']
  body := ['B']
  data := some []
  priority := NotificationPriority.normal
  status := NotificationStatus.pending
  retry_count := 0
  max_retries := 3
  next_retry_at := none
  error_message := none
  sent_at := none }

/-- Template `"{a}"` as a character list. -/
def cexTemplate : Str := ['\x7b', 'a', '\x7d']

/-- Data map `{a: "{b}", b: "X"}` (in insertion order). -/
def cexData : List (Str × Str) := [(['a'], ['\x7b', 'b', '\x7d']), (['b'], ['X'])]

/-- Data map `{b: "c", a: "{b}"}` (in insertion order). -/
def cex6Data : List (Str × Str) := [(['b'], ['c']), (['a'], ['\x7b', 'b', '\x7d'])]

/-- A brace-disciplined segment list: `Hi {n}!`. -/
def segsEx : List Seg := [Seg.lit ['H', 'i', ' '], Seg.hole ['n'], Seg.lit ['!']]

/-- A brace-free data map `{n: "Bob"}`. -/
def dataEx : List (Str × Str) := [(['n'], ['B', 'o', 'b'])]

/-- A concrete registry state with one user holding two sockets. -/
def cmEx : ConnectionManager := ⟨[("u1", {1, 2})]⟩

/-! ## Theorems -/

/-- C1 counterexample: with `push_enabled = false` and an event-specific
override `{push: true}` for the event's type, the resolver returns `false`,
not `true`: the global-flag check at lines 129–132 returns early, before the
override at lines 135–139 is ever consulted. -/
theorem should_send_override_does_not_beat_global_flag :
    should_send_notification (some prefsPushOffOverrideOn) pushTemplateE "E" = false := by
  decide

/-- C1 (amended): an event-specific boolean override is honored only when the
channel's global flag passes. If the global flag for the template's channel
is false the resolver returns false regardless of any override; when the
global flag is true and the override specifies a boolean for the channel,
that boolean is returned. -/
theorem should_send_global_flag_short_circuits
    (prefs : UserNotificationPreference) (template : NotificationTemplate)
    (event_type : String) :
    (template.notification_type = NotificationType.push → prefs.push_enabled = false →
      should_send_notification (some prefs) template event_type = false)
    ∧ (template.notification_type = NotificationType.email → prefs.email_enabled = false →
      should_send_notification (some prefs) template event_type = false)
    ∧ (∀ ep b,
        (template.notification_type = NotificationType.push → prefs.push_enabled = true) →
        (template.notification_type = NotificationType.email → prefs.email_enabled = true) →
        prefs.event_preferences.lookup event_type = some ep →
        ep.lookup template.notification_type.value = some b →
        should_send_notification (some prefs) template event_type = b) := by
  refine ⟨?_, ?_, ?_⟩
  · intro htype hflag
    simp [should_send_notification, htype, hflag]
  · intro htype hflag
    simp [should_send_notification, htype, hflag]
  · intro ep b hpush hemail hep hb
    cases htype : template.notification_type with
    | email =>
      have he := hemail htype
      rw [htype] at hb
      simp [should_send_notification, htype, he, hep, hb]
    | push =>
      have hp := hpush htype
      rw [htype] at hb
      simp [should_send_notification, htype, hp, hep, hb]

/-- C1 amended-claim witness at concrete inputs: push globally enabled with
an override `{push: false}` yields `false` (the override is honored once the
global flag passes). -/
theorem should_send_global_flag_short_circuits_witness :
    should_send_notification
      (some { email_enabled := true, push_enabled := true, fcm_token := none,
              event_preferences := [("E", [("push", false)])] })
      pushTemplateE "E" = false := by
  exact (should_send_global_flag_short_circuits _ pushTemplateE "E").2.2
    [("push", false)] false (fun _ => rfl) (fun h => by cases h) rfl rfl

/-- C3: the failure handler increments `retry_count` by exactly one; when the
new count is strictly below `max_retries` the status becomes RETRYING with
`next_retry_at = now + retry_delay × new_count` (linear backoff); when the
new count equals `max_retries` the status becomes FAILED and `next_retry_at`
is not touched (no next retry is scheduled). -/
theorem handle_failed_retry_state_machine (retry_delay now : Nat)
    (n : Notification) (err : Option String) :
    (handle_failed_notification retry_delay now n err).retry_count = n.retry_count + 1
    ∧ (n.retry_count + 1 < n.max_retries →
        (handle_failed_notification retry_delay now n err).status = NotificationStatus.retrying
        ∧ (handle_failed_notification retry_delay now n err).next_retry_at
            = some (now + retry_delay * (n.retry_count + 1)))
    ∧ (n.retry_count + 1 = n.max_retries →
        (handle_failed_notification retry_delay now n err).status = NotificationStatus.failed
        ∧ (handle_failed_notification retry_delay now n err).next_retry_at
            = n.next_retry_at) := by
  refine ⟨rfl, ?_, ?_⟩
  · intro hlt
    constructor <;> simp [handle_failed_notification, hlt]
  · intro heq
    have hnlt : ¬ n.retry_count + 1 < n.max_retries := by omega
    constructor <;> simp [handle_failed_notification, hnlt]

/-- C3 witness: applying the handler to the concrete fresh notification
(count 0, max 3) at `retry_delay = 60`, `now = 1000` yields count 1, status
RETRYING and `next_retry_at = 1060`. -/
theorem handle_failed_retry_state_machine_witness :
    (handle_failed_notification 60 1000 freshNotification none).retry_count = 1
    ∧ (handle_failed_notification 60 1000 freshNotification none).status
        = NotificationStatus.retrying
    ∧ (handle_failed_notification 60 1000 freshNotification none).next_retry_at
        = some 1060 := by
  have h := handle_failed_retry_state_machine 60 1000 freshNotification none
  have h2 := h.2.1 (by decide)
  exact ⟨h.1, h2.1, by simpa using h2.2⟩

/-- C4: from a freshly created notification (status PENDING, `retry_count`
0, `max_retries` 3), three consecutive invocations of the failure handler
drive the status sequence PENDING, RETRYING, RETRYING, FAILED, with
`retry_count` equal to 3 in the FAILED state and never exceeding
`max_retries` anywhere along the sequence. -/
theorem three_failures_reach_failed (rd t1 t2 t3 : Nat)
    (e1 e2 e3 : Option String) (n : Notification)
    (hstatus : n.status = NotificationStatus.pending)
    (hcount : n.retry_count = 0) (hmax : n.max_retries = 3) :
    n.status = NotificationStatus.pending
    ∧ (handle_failed_notification rd t1 n e1).status = NotificationStatus.retrying
    ∧ (handle_failed_notification rd t2 (handle_failed_notification rd t1 n e1) e2).status
        = NotificationStatus.retrying
    ∧ (handle_failed_notification rd t3
        (handle_failed_notification rd t2 (handle_failed_notification rd t1 n e1) e2) e3).status
        = NotificationStatus.failed
    ∧ (handle_failed_notification rd t3
        (handle_failed_notification rd t2 (handle_failed_notification rd t1 n e1) e2) e3).retry_count
        = 3
    ∧ (handle_failed_notification rd t1 n e1).retry_count ≤ n.max_retries
    ∧ (handle_failed_notification rd t2 (handle_failed_notification rd t1 n e1) e2).retry_count
        ≤ n.max_retries
    ∧ (handle_failed_notification rd t3
        (handle_failed_notification rd t2 (handle_failed_notification rd t1 n e1) e2) e3).retry_count
        ≤ n.max_retries := by
  have aux : ∀ (rdx nowx : Nat) (m : Notification) (err : Option String),
      (handle_failed_notification rdx nowx m err).retry_count = m.retry_count + 1
      ∧ (handle_failed_notification rdx nowx m err).max_retries = m.max_retries
      ∧ (m.retry_count + 1 < m.max_retries →
          (handle_failed_notification rdx nowx m err).status = NotificationStatus.retrying)
      ∧ (¬ m.retry_count + 1 < m.max_retries →
          (handle_failed_notification rdx nowx m err).status = NotificationStatus.failed) := by
    intro rdx nowx m err
    refine ⟨rfl, rfl, ?_, ?_⟩
    · intro hlt
      simp [handle_failed_notification, hlt]
    · intro hnlt
      simp [handle_failed_notification, hnlt]
  obtain ⟨c1, m1, s1, _⟩ := aux rd t1 n e1
  obtain ⟨c2, m2, s2, _⟩ := aux rd t2 (handle_failed_notification rd t1 n e1) e2
  obtain ⟨c3, m3, _, f3⟩ :=
    aux rd t3 (handle_failed_notification rd t2 (handle_failed_notification rd t1 n e1) e2) e3
  refine ⟨hstatus, ?_, ?_, ?_, ?_, ?_, ?_, ?_⟩
  · exact s1 (by omega)
  · exact s2 (by omega)
  · exact f3 (by omega)
  · omega
  · omega
  · omega
  · omega

/-- C4 witness: the concrete fresh notification run through three failures
at `retry_delay = 60` and times 10, 20, 30 shows the PENDING → RETRYING →
RETRYING → FAILED sequence with final `retry_count` 3. -/
theorem three_failures_reach_failed_witness :
    freshNotification.status = NotificationStatus.pending
    ∧ (handle_failed_notification 60 10 freshNotification none).status
        = NotificationStatus.retrying
    ∧ (handle_failed_notification 60 20
        (handle_failed_notification 60 10 freshNotification none) none).status
        = NotificationStatus.retrying
    ∧ (handle_failed_notification 60 30
        (handle_failed_notification 60 20
          (handle_failed_notification 60 10 freshNotification none) none) none).status
        = NotificationStatus.failed
    ∧ (handle_failed_notification 60 30
        (handle_failed_notification 60 20
          (handle_failed_notification 60 10 freshNotification none) none) none).retry_count
        = 3 := by
  have h := three_failures_reach_failed 60 10 20 30 none none none freshNotification
    rfl rfl rfl
  exact ⟨h.1, h.2.1, h.2.2.1, h.2.2.2.1, h.2.2.2.2.1⟩

/-- C2 counterexample: an unexpected exception raised inside the Delivery
Orchestrator (`process_event`) is swallowed by its own `try/except` (lines
96–97 of `notification_service.py`), so the consumer callback proceeds to
`basic_ack` (line 119): the transport message is acked, not nacked with
redeliver. -/
theorem orchestrator_exception_is_acked :
    process_notification_event (Except.ok evNoEmail) (Except.error PyExc.otherExc)
      = ConsumerOutcome.ack := rfl

/-- C2 (amended): exceptions escaping the adapter's own pipeline (json
parsing, routing-key mapping, shape transformation, schema construction) are
nacked with requeue unless they are the schema `ValidationError`, which is
rejected without requeue; but an unexpected exception inside the Delivery
Orchestrator is caught and logged there, never reaches the adapter, and the
transport message is acked. -/
theorem consumer_ack_nack_discipline (pipeline : Except PyExc NotificationEvent)
    (body : Except PyExc Unit) :
    (pipeline = Except.error PyExc.otherExc →
      process_notification_event pipeline body = ConsumerOutcome.nackRequeue)
    ∧ (pipeline = Except.error PyExc.validationError →
      process_notification_event pipeline body = ConsumerOutcome.rejectNoRequeue)
    ∧ (∀ ev, pipeline = Except.ok ev →
      process_notification_event pipeline body = ConsumerOutcome.ack) := by
  refine ⟨?_, ?_, ?_⟩
  · intro h
    subst h
    rfl
  · intro h
    subst h
    rfl
  · intro ev h
    subst h
    cases body <;> rfl

/-- C2 amended-claim witness at concrete inputs: each of the three consumer
outcomes realized. -/
theorem consumer_ack_nack_discipline_witness :
    process_notification_event (Except.error PyExc.otherExc) (Except.ok ())
      = ConsumerOutcome.nackRequeue
    ∧ process_notification_event (Except.error PyExc.validationError) (Except.ok ())
      = ConsumerOutcome.rejectNoRequeue
    ∧ process_notification_event (Except.ok evNoEmail) (Except.ok ())
      = ConsumerOutcome.ack := by
  refine ⟨?_, ?_, ?_⟩
  · exact (consumer_ack_nack_discipline _ _).1 rfl
  · exact (consumer_ack_nack_discipline _ _).2.1 rfl
  · exact (consumer_ack_nack_discipline _ _).2.2 evNoEmail rfl

/-- The failure branch of the status update never yields status SENT. -/
theorem handle_failed_status_ne_sent (rd now : Nat) (n : Notification)
    (e : Option String) :
    (handle_failed_notification rd now n e).status ≠ NotificationStatus.sent := by
  simp only [handle_failed_notification]
  split <;> simp

/-- `finishSend` with `success = false` is exactly the failure handler with
no error message. -/
theorem finishSend_failure (rd now : Nat) (n : Notification) (svw : Bool) :
    finishSend rd now n false svw = handle_failed_notification rd now n none := by
  simp [finishSend]

/-- `finishSend` with `success = true`: status SENT, provenance recorded. -/
theorem finishSend_success (rd now : Nat) (n : Notification) (svw : Bool) :
    (finishSend rd now n true svw).status = NotificationStatus.sent
    ∧ (finishSend rd now n true svw).data
        = some (dictSet (n.data.getD []) "sent_via".data
            (if svw then "websocket".data else n.notification_type.value.data)) := by
  constructor <;> simp [finishSend]

/-- `finishSend` never touches `error_message`: the success path copies it,
and the failure path calls the handler with no message. -/
theorem finishSend_error_message (rd now : Nat) (n : Notification)
    (success svw : Bool) :
    (finishSend rd now n success svw).error_message = n.error_message := by
  cases success with
  | false =>
    rw [finishSend_failure]
    rfl
  | true => rfl

/-- C8 counterexample: a send attempt that fails because the sender returned
an unsuccessful result drives the retry machinery (status RETRYING) yet
leaves `error_message` holding the stale detail of an *earlier* failure —
the field is not overwritten with any latest failure detail, because line
279 passes no message and the `if error_message:` guard at line 314 skips
the write. -/
theorem failed_send_keeps_stale_error_message :
    (send_notification 60 1000 allFailWorld staleEmailNotification).notification.status
      = NotificationStatus.retrying
    ∧ (send_notification 60 1000 allFailWorld staleEmailNotification).notification.error_message
      = some "previous-error" := by
  constructor <;> rfl

/-- C8 (amended): `error_message` is overwritten only when the failure
carries a truthy thrown-error detail. The sender-returned-failure path (and
the success path) of `_send_notification` leave `error_message` unchanged;
the exception path overwrites it with `str(e)` exactly when that string is
non-empty. -/
theorem error_message_overwrite_requires_detail (rd now : Nat) (w : SendWorld)
    (n : Notification) (msg : String) :
    (send_notification rd now w n).notification.error_message = n.error_message
    ∧ (msg ≠ "" → (send_notification_exc rd now n msg).error_message = some msg)
    ∧ (send_notification_exc rd now n "").error_message = n.error_message := by
  refine ⟨?_, ?_, ?_⟩
  · cases ht : n.notification_type with
    | email =>
      simp only [send_notification, ht]
      exact finishSend_error_message rd now n _ _
    | push =>
      simp only [send_notification, ht]
      exact finishSend_error_message rd now n _ _
  · intro h
    simp [send_notification_exc, handle_failed_notification, h]
  · simp [send_notification_exc, handle_failed_notification]

/-- C8 amended-claim witness at concrete inputs: the failing concrete send
keeps the stale message, and a nonempty exception detail does overwrite. -/
theorem error_message_overwrite_requires_detail_witness :
    (send_notification 60 1000 allFailWorld staleEmailNotification).notification.error_message
      = some "previous-error"
    ∧ (send_notification_exc 60 1000 staleEmailNotification "boom").error_message
      = some "boom" := by
  have h := error_message_overwrite_requires_detail 60 1000 allFailWorld
    staleEmailNotification "boom"
  refine ⟨?_, h.2.1 (by decide)⟩
  rw [h.1]
  rfl

/-- C7: when the event carries no user email, `process_event` creates no
email-channel notification row — every row it creates is push-typed — and
the send phase consequently never invokes the email sender for this event
(the email template is skipped with a warning only). -/
theorem no_email_channel_without_address
    (preferences : Option UserNotificationPreference) (event : NotificationEvent)
    (templates : List NotificationTemplate) (rd now : Nat) (w : SendWorld)
    (hmail : event.user_email = none) :
    ∀ n ∈ process_event_created preferences event templates,
      n.notification_type = NotificationType.push
      ∧ (send_notification rd now w n).attempted_email = false := by
  intro n hn
  rw [process_event_created, List.mem_filterMap] at hn
  obtain ⟨t, ht, hpt⟩ := hn
  simp only [processTemplate] at hpt
  split at hpt
  · exact absurd hpt (by simp)
  · split at hpt
    · rw [hmail] at hpt
      simp [optTruthy] at hpt
    · split at hpt
      · injection hpt with h
        subst h
        exact ⟨rfl, rfl⟩
      · exact absurd hpt (by simp)

/-- C7 witness: for the concrete no-email event with both an email and a
push template active, the created push row is the only row, is push-typed,
and its send attempt does not touch the email sender. -/
theorem no_email_channel_without_address_witness :
    pushRowNoEmail.notification_type = NotificationType.push
    ∧ (send_notification 60 0 allFailWorld pushRowNoEmail).attempted_email = false :=
  no_email_channel_without_address none evNoEmail templatesE 60 0 allFailWorld rfl
    pushRowNoEmail (by decide)

/-- In the overwrite branch of `dictSet`, the key maps to the new value. -/
theorem find?_map_overwrite (k v : Str) :
    ∀ (m : List (Str × Str)),
      (m.find? (fun kv => decide (kv.1 = k))).isSome →
      (m.map (fun kv => if kv.1 = k then (k, v) else kv)).find?
        (fun kv => decide (kv.1 = k)) = some (k, v) := by
  intro m
  induction m with
  | nil => simp
  | cons a t ih =>
    intro hsome
    by_cases ha : a.1 = k
    · simp only [List.map_cons, if_pos ha]
      exact List.find?_cons_of_pos _ (by simp)
    · simp only [List.map_cons, if_neg ha]
      rw [List.find?_cons_of_neg _ (by simp [ha])]
      apply ih
      rw [List.find?_cons_of_neg _ (by simp [ha])] at hsome
      exact hsome

/-- In the append branch of `dictSet`, the key maps to the new value. -/
theorem find?_append_fresh (k v : Str) :
    ∀ (m : List (Str × Str)),
      m.find? (fun kv => decide (kv.1 = k)) = none →
      (m ++ [(k, v)]).find? (fun kv => decide (kv.1 = k)) = some (k, v) := by
  intro m
  induction m with
  | nil =>
    intro _
    exact List.find?_cons_of_pos _ (by simp)
  | cons a t ih =>
    intro hnone
    by_cases ha : a.1 = k
    · rw [List.find?_cons_of_pos _ (by simp [ha])] at hnone
      exact absurd hnone (by simp)
    · rw [List.cons_append, List.find?_cons_of_neg _ (by simp [ha])]
      apply ih
      rw [List.find?_cons_of_neg _ (by simp [ha])] at hnone
      exact hnone

/-- After `m[k] = v`, reading `k` yields `v`. -/
theorem dictGet_dictSet_self (m : List (Str × Str)) (k v : Str) :
    dictGet (dictSet m k v) k = some v := by
  unfold dictGet dictSet
  by_cases h : (m.find? (fun kv => decide (kv.1 = k))).isSome
  · rw [if_pos h, find?_map_overwrite k v m h]
    rfl
  · rw [if_neg h, find?_append_fresh k v m (Option.not_isSome_iff_eq_none.mp h)]
    rfl

/-- A successfully finished send records the provenance under `sent_via`. -/
theorem finishSend_provenance (rd now : Nat) (n : Notification) (S V : Bool) :
    (finishSend rd now n S V).status = NotificationStatus.sent →
    dictGet ((finishSend rd now n S V).data.getD []) "sent_via".data
      = some (if V then "websocket".data else n.notification_type.value.data) := by
  intro hsent
  cases S with
  | false =>
    rw [finishSend_failure] at hsent
    exact absurd hsent (handle_failed_status_ne_sent rd now n none)
  | true =>
    rw [(finishSend_success rd now n V).2, Option.getD_some, dictGet_dictSet_self]

/-- C9: whenever a send attempt succeeds, the notification's data payload
records which transport carried it — `"websocket"` when the realtime path
delivered, else the raw channel kind; and a push notification for a user
with an active realtime connection that accepts the payload is delivered via
the realtime path (the push-token sender is not attempted) and is marked
sent with the websocket provenance. -/
theorem send_success_records_provenance (rd now : Nat) (w : SendWorld)
    (n : Notification) :
    ((send_notification rd now w n).notification.status = NotificationStatus.sent →
      dictGet ((send_notification rd now w n).notification.data.getD []) "sent_via".data
        = some (if (send_notification rd now w n).sent_via_websocket
                then "websocket".data else n.notification_type.value.data))
    ∧ (n.notification_type = NotificationType.push → w.ws_connected = true →
        w.ws_send_ok = true →
        (send_notification rd now w n).sent_via_websocket = true
        ∧ (send_notification rd now w n).attempted_push = false
        ∧ (send_notification rd now w n).notification.status = NotificationStatus.sent) := by
  constructor
  · intro hsent
    cases ht : n.notification_type with
    | email =>
      simp only [send_notification, ht] at hsent ⊢
      have h := finishSend_provenance rd now n w.email_ok false hsent
      rw [ht] at h
      exact h
    | push =>
      simp only [send_notification, ht] at hsent ⊢
      have h := finishSend_provenance rd now n
        (w.ws_connected && w.ws_send_ok
          || !(w.ws_connected && w.ws_send_ok) && optTruthy n.recipient_fcm_token && w.push_ok)
        (w.ws_connected && w.ws_send_ok) hsent
      rw [ht] at h
      exact h
  · intro ht hwc hws
    refine ⟨?_, ?_, ?_⟩
    · simp [send_notification, ht, hwc, hws]
    · simp [send_notification, ht, hwc, hws]
    · simp only [send_notification, ht, hwc, hws, Bool.true_and, Bool.and_self,
        Bool.not_true, Bool.false_and, Bool.true_or]
      exact (finishSend_success rd now n true).1

/-- C9 witness: the concrete fresh push notification in the world with an
accepting realtime connection goes out via websocket, skips FCM, is marked
sent, and carries provenance `"websocket"`. -/
theorem send_success_records_provenance_witness :
    (send_notification 60 5 wsWorld freshNotification).sent_via_websocket = true
    ∧ (send_notification 60 5 wsWorld freshNotification).attempted_push = false
    ∧ (send_notification 60 5 wsWorld freshNotification).notification.status
        = NotificationStatus.sent
    ∧ dictGet ((send_notification 60 5 wsWorld freshNotification).notification.data.getD [])
        "sent_via".data = some "websocket".data := by
  have h := send_success_records_provenance 60 5 wsWorld freshNotification
  have h2 := h.2 rfl rfl rfl
  refine ⟨h2.1, h2.2.1, h2.2.2, ?_⟩
  have h1 := h.1 h2.2.2
  rw [h2.1] at h1
  simpa using h1

/-- C10: the registry keeps every listed user's socket set non-empty —
`connect`, `disconnect`, `send_notification` and `broadcast` each preserve
the invariant (an entry is deleted as soon as its set becomes empty) — and
under the invariant `is_user_connected u` holds exactly when `u` is a key of
the map. -/
theorem connection_registry_invariant (st : ConnectionManager) (ws : Nat)
    (u : String) (failing : Finset Nat) (bfail : String → Finset Nat)
    (h : cmInv st) :
    cmInv (cmConnect ws u st)
    ∧ cmInv (cmDisconnect ws u st)
    ∧ cmInv (cmSend u failing st).2
    ∧ cmInv (cmBroadcast bfail st)
    ∧ cmIsUserConnected u st = (cmLookup st u).isSome := by
  refine ⟨?_, ?_, ?_, ?_, ?_⟩
  · unfold cmConnect
    cases hl : cmLookup st u with
    | none =>
      intro e he
      rw [List.mem_append] at he
      cases he with
      | inl hm => exact h e hm
      | inr hm =>
        have : e = (u, ({ws} : Finset Nat)) := by simpa using hm
        rw [this]
        exact Finset.singleton_ne_empty ws
    | some s =>
      intro e he
      rw [List.mem_map] at he
      obtain ⟨a, ha, rfl⟩ := he
      by_cases hau : a.1 = u
      · rw [if_pos hau]
        exact Finset.insert_ne_empty ws s
      · rw [if_neg hau]
        exact h a ha
  · unfold cmDisconnect
    cases hl : cmLookup st u with
    | none => exact h
    | some s =>
      simp only []
      by_cases hemp : s.erase ws = ∅
      · rw [if_pos hemp]
        intro e he
        rw [List.mem_filter] at he
        exact h e he.1
      · rw [if_neg hemp]
        intro e he
        rw [List.mem_map] at he
        obtain ⟨a, ha, rfl⟩ := he
        by_cases hau : a.1 = u
        · rw [if_pos hau]
          exact hemp
        · rw [if_neg hau]
          exact h a ha
  · unfold cmSend
    cases hl : cmLookup st u with
    | none => exact h
    | some s =>
      simp only []
      by_cases hemp : s \ failing = ∅
      · rw [if_pos hemp]
        intro e he
        rw [List.mem_filter] at he
        exact h e he.1
      · rw [if_neg hemp]
        intro e he
        rw [List.mem_map] at he
        obtain ⟨a, ha, rfl⟩ := he
        by_cases hau : a.1 = u
        · rw [if_pos hau]
          exact hemp
        · rw [if_neg hau]
          exact h a ha
  · intro e he
    unfold cmBroadcast at he
    rw [List.mem_filter] at he
    exact of_decide_eq_true he.2
  · cases hl : cmLookup st u with
    | none => simp [cmIsUserConnected, hl]
    | some s =>
      obtain ⟨e, hfind, hsnd⟩ := Option.map_eq_some'.mp hl
      have hmem : e ∈ st.active_connections := List.mem_of_find?_eq_some hfind
      have hne : s ≠ ∅ := hsnd ▸ h e hmem
      have hpos : 0 < s.card := Finset.card_pos.mpr (Finset.nonempty_iff_ne_empty.mpr hne)
      simp [cmIsUserConnected, hl, hpos]

/-- C10 witness: the concrete two-socket registry state satisfies the
invariant after connect, disconnect, and a send that loses one socket, and
its `is_user_connected` agrees with key membership. -/
theorem connection_registry_invariant_witness :
    cmInv (cmConnect 3 "u1" cmEx)
    ∧ cmInv (cmDisconnect 3 "u1" cmEx)
    ∧ cmInv (cmSend "u1" {1} cmEx).2
    ∧ cmIsUserConnected "u1" cmEx = (cmLookup cmEx "u1").isSome := by
  have h := connection_registry_invariant cmEx 3 "u1" {1} (fun _ => ∅) (by decide)
  exact ⟨h.1, h.2.1, h.2.2.1, h.2.2.2.2⟩

/-- The fuel argument of `replaceGo` is irrelevant once it covers the string
length. -/
theorem replaceGo_fuel (pat rep : Str) :
    ∀ (f1 f2 : Nat) (s : Str), s.length ≤ f1 → s.length ≤ f2 →
      replaceGo pat rep f1 s = replaceGo pat rep f2 s := by
  intro f1
  induction f1 with
  | zero =>
    intro f2 s h1 _
    have hs : s = [] := List.eq_nil_of_length_eq_zero (Nat.le_zero.mp h1)
    subst hs
    cases f2 <;> rfl
  | succ f ih =>
    intro f2 s h1 h2
    cases s with
    | nil => cases f2 <;> rfl
    | cons c rest =>
      cases f2 with
      | zero => exact absurd h2 (by simp)
      | succ g =>
        simp only [replaceGo]
        simp only [List.length_cons] at h1 h2
        by_cases hcond : pat <+: (c :: rest) ∧ pat ≠ []
        · rw [if_pos hcond, if_pos hcond]
          congr 1
          have hp : 0 < pat.length := List.length_pos.mpr hcond.2
          have hX : ((c :: rest).drop pat.length).length
              = rest.length + 1 - pat.length := by
            simp [List.length_drop]
          exact ih g _ (by omega) (by omega)
        · rw [if_neg hcond, if_neg hcond]
          congr 1
          exact ih g rest (by omega) (by omega)

/-- Unfolding equation for `replaceL` on a nonempty string. -/
theorem replaceL_cons (pat rep : Str) (c : Char) (rest : Str) :
    replaceL pat rep (c :: rest)
      = if pat <+: (c :: rest) ∧ pat ≠ [] then
          rep ++ replaceL pat rep ((c :: rest).drop pat.length)
        else c :: replaceL pat rep rest := by
  show replaceGo pat rep (c :: rest).length (c :: rest) = _
  simp only [List.length_cons, replaceGo]
  by_cases hcond : pat <+: (c :: rest) ∧ pat ≠ []
  · rw [if_pos hcond, if_pos hcond]
    congr 1
    apply replaceGo_fuel
    · have hp : 0 < pat.length := List.length_pos.mpr hcond.2
      simp only [List.length_drop, List.length_cons]
      omega
    · exact Nat.le_refl _
  · rw [if_neg hcond, if_neg hcond]
    rfl

/-- `replaceL` with a brace-headed pattern copies a brace-free chunk. -/
theorem replaceL_skip_chunk (k v : Str) :
    ∀ (q s : Str), '\x7b' ∉ q →
      replaceL ('\x7b' :: (k ++ ['\x7d'])) v (q ++ s)
        = q ++ replaceL ('\x7b' :: (k ++ ['\x7d'])) v s := by
  intro q
  induction q with
  | nil =>
    intro s _
    rfl
  | cons c q' ih =>
    intro s hq
    have hc : c ≠ '\x7b' := fun hcc => hq (hcc ▸ List.mem_cons_self c q')
    show replaceL ('\x7b' :: (k ++ ['\x7d'])) v (c :: (q' ++ s))
        = c :: (q' ++ replaceL ('\x7b' :: (k ++ ['\x7d'])) v s)
    rw [replaceL_cons]
    have hnp : ¬ (('\x7b' :: (k ++ ['\x7d'])) <+: (c :: (q' ++ s))
        ∧ ('\x7b' :: (k ++ ['\x7d'])) ≠ []) := by
      intro hcond
      obtain ⟨hpre, -⟩ := hcond
      rw [List.cons_prefix_cons] at hpre
      exact hc hpre.1.symm
    rw [if_neg hnp, ih s (fun hm => hq (List.mem_cons_of_mem c hm))]

/-- The fuel argument of `renderGo` is irrelevant once it covers the string
length. -/
theorem renderGo_fuel (data : List (Str × Str)) :
    ∀ (f1 f2 : Nat) (s : Str), s.length ≤ f1 → s.length ≤ f2 →
      renderGo data f1 s = renderGo data f2 s := by
  intro f1
  induction f1 with
  | zero =>
    intro f2 s h1 _
    have hs : s = [] := List.eq_nil_of_length_eq_zero (Nat.le_zero.mp h1)
    subst hs
    cases f2 <;> rfl
  | succ f ih =>
    intro f2 s h1 h2
    cases s with
    | nil => cases f2 <;> rfl
    | cons c rest =>
      cases f2 with
      | zero => exact absurd h2 (by simp)
      | succ g =>
        simp only [renderGo]
        simp only [List.length_cons] at h1 h2
        cases hsf : specFind data (c :: rest) with
        | some kv =>
          simp only [hsf]
          congr 1
          have hX : ((c :: rest).drop (kv.1.length + 2)).length
              = rest.length + 1 - (kv.1.length + 2) := by
            simp [List.length_drop]
          exact ih g _ (by omega) (by omega)
        | none =>
          simp only [hsf]
          congr 1
          exact ih g rest (by omega) (by omega)

/-- Unfolding equation for `renderSpec` on a nonempty string. -/
theorem renderSpec_cons (data : List (Str × Str)) (c : Char) (rest : Str) :
    renderSpec data (c :: rest)
      = match specFind data (c :: rest) with
        | some kv => kv.2 ++ renderSpec data ((c :: rest).drop (kv.1.length + 2))
        | none => c :: renderSpec data rest := by
  show renderGo data (c :: rest).length (c :: rest) = _
  simp only [List.length_cons, renderGo]
  cases hsf : specFind data (c :: rest) with
  | some kv =>
    simp only [hsf]
    congr 1
    apply renderGo_fuel
    · simp only [List.length_drop, List.length_cons]
      omega
    · exact Nat.le_refl _
  | none =>
    simp only [hsf]
    rfl

/-- No placeholder starts at a character other than an opening brace. -/
theorem specFind_none_of_head (data : List (Str × Str)) (c : Char) (s : Str)
    (hc : c ≠ '\x7b') :
    specFind data (c :: s) = none := by
  unfold specFind
  rw [List.find?_eq_none]
  intro kv _
  simp only [decide_eq_true_eq]
  intro hpre
  rw [List.cons_prefix_cons] at hpre
  exact hc hpre.1.symm

/-- `renderSpec` copies a brace-free chunk. -/
theorem renderSpec_skip_chunk (data : List (Str × Str)) :
    ∀ (q s : Str), '\x7b' ∉ q →
      renderSpec data (q ++ s) = q ++ renderSpec data s := by
  intro q
  induction q with
  | nil =>
    intro s _
    rfl
  | cons c q' ih =>
    intro s hq
    have hc : c ≠ '\x7b' := fun hcc => hq (hcc ▸ List.mem_cons_self c q')
    rw [List.cons_append, renderSpec_cons, specFind_none_of_head data c (q' ++ s) hc]
    show c :: renderSpec data (q' ++ s) = (c :: q') ++ renderSpec data s
    rw [ih s (fun hm => hq (List.mem_cons_of_mem c hm))]
    rfl

/-- Decompose brace-freedom of a nonempty string. -/
theorem braceFree_cons {c : Char} {t : Str} (h : braceFree (c :: t)) :
    c ≠ '\x7b' ∧ c ≠ '\x7d' ∧ braceFree t := by
  simp only [braceFree, List.mem_cons, not_or] at h
  exact ⟨fun hc => h.1.1 hc.symm, fun hc => h.2.1 hc.symm, h.1.2, h.2.2⟩

/-- Two brace-free keys whose closed placeholders line up are equal. -/
theorem key_eq_of_placeholder_pfx :
    ∀ (k w s : Str), braceFree k → braceFree w →
      (k ++ ['\x7d']) <+: (w ++ ('\x7d' :: s)) → k = w := by
  intro k
  induction k with
  | nil =>
    intro w s _ hw hpre
    cases w with
    | nil => rfl
    | cons b w' =>
      exfalso
      rw [List.nil_append, List.cons_append, List.cons_prefix_cons] at hpre
      exact (braceFree_cons hw).2.1 hpre.1.symm
  | cons a k' ih =>
    intro w s hk hw hpre
    cases w with
    | nil =>
      exfalso
      rw [List.nil_append, List.cons_append, List.cons_prefix_cons] at hpre
      exact (braceFree_cons hk).2.1 hpre.1
    | cons b w' =>
      rw [List.cons_append, List.cons_append, List.cons_prefix_cons] at hpre
      obtain ⟨hab, hpre'⟩ := hpre
      have htail := ih w' s (braceFree_cons hk).2.2 (braceFree_cons hw).2.2 hpre'
      rw [hab, htail]

/-- At the start of a well-formed placeholder `{w}…`, the placeholder of a
brace-free key `k` matches exactly when `k = w`. -/
theorem placeholder_pfx_iff (k w : Str) (hk : braceFree k) (hw : braceFree w)
    (s : Str) :
    ('\x7b' :: (k ++ ['\x7d'])) <+: ('\x7b' :: (w ++ ('\x7d' :: s))) ↔ k = w := by
  constructor
  · intro hpre
    rw [List.cons_prefix_cons] at hpre
    exact key_eq_of_placeholder_pfx k w s hk hw hpre.2
  · intro h
    subst h
    rw [List.cons_prefix_cons]
    refine ⟨rfl, ?_⟩
    have hsplit : k ++ ('\x7d' :: s) = (k ++ ['\x7d']) ++ s := by simp
    rw [hsplit]
    exact List.prefix_append _ _

/-- At the start of a well-formed placeholder `{w}…`, `specFind` reduces to a
plain key lookup. -/
theorem specFind_hole (w s : Str) (hw : braceFree w) :
    ∀ (data : List (Str × Str)), (∀ kv ∈ data, braceFree kv.1) →
      specFind data ('\x7b' :: (w ++ ('\x7d' :: s)))
        = data.find? (fun kv => decide (kv.1 = w)) := by
  intro data
  induction data with
  | nil =>
    intro _
    rfl
  | cons kv t ih =>
    intro hkeys
    have hkv : braceFree kv.1 := hkeys kv (List.mem_cons_self kv t)
    have heq : decide (('\x7b' :: (kv.1 ++ ['\x7d'])) <+: ('\x7b' :: (w ++ ('\x7d' :: s))))
        = decide (kv.1 = w) :=
      decide_eq_decide.mpr (placeholder_pfx_iff kv.1 w hkv hw s)
    by_cases hkw : kv.1 = w
    · rw [show specFind (kv :: t) ('\x7b' :: (w ++ ('\x7d' :: s)))
          = List.find? (fun x => decide (('\x7b' :: (x.1 ++ ['\x7d']))
              <+: ('\x7b' :: (w ++ ('\x7d' :: s))))) (kv :: t) from rfl]
      rw [List.find?_cons_of_pos _ (by simp only [heq]; simp [hkw]),
          List.find?_cons_of_pos _ (by simp [hkw])]
    · rw [show specFind (kv :: t) ('\x7b' :: (w ++ ('\x7d' :: s)))
          = List.find? (fun x => decide (('\x7b' :: (x.1 ++ ['\x7d']))
              <+: ('\x7b' :: (w ++ ('\x7d' :: s))))) (kv :: t) from rfl]
      rw [List.find?_cons_of_neg _ (by simp only [heq]; simp [hkw]),
          List.find?_cons_of_neg _ (by simp [hkw])]
      exact ih (fun x hx => hkeys x (List.mem_cons_of_mem kv hx))

/-- `substSeg` over the empty data map is the identity. -/
theorem substSeg_nil (seg : Seg) : substSeg [] seg = seg := by
  cases seg <;> rfl

/-- One sequential substitution step folds into the simultaneous map. -/
theorem substSeg_cons (k v : Str) (d : List (Str × Str)) (seg : Seg) :
    substSeg d (subst1 k v seg) = substSeg ((k, v) :: d) seg := by
  cases seg with
  | lit c => rfl
  | hole w =>
    by_cases hkw : w = k
    · simp [subst1, substSeg, hkw]
    · simp [subst1, substSeg, hkw, Ne.symm hkw]

/-- Simultaneous substitution is idempotent on segments. -/
theorem substSeg_idem (data : List (Str × Str)) (seg : Seg) :
    substSeg data (substSeg data seg) = substSeg data seg := by
  cases seg with
  | lit c => rfl
  | hole w =>
    cases hfind : data.find? (fun kv => decide (kv.1 = w)) with
    | some kv => simp [substSeg, hfind]
    | none => simp [substSeg, hfind]

/-- `subst1` with a brace-free value preserves segment well-formedness. -/
theorem subst1_wf (k v : Str) (hv : braceFree v) (seg : Seg) (h : seg.wf) :
    (subst1 k v seg).wf := by
  cases seg with
  | lit c => exact h
  | hole w =>
    by_cases hkw : w = k
    · simpa [subst1, Seg.wf, hkw] using hv
    · simpa [subst1, Seg.wf, hkw] using h

/-- `substSeg` with brace-free values preserves segment well-formedness. -/
theorem substSeg_wf (data : List (Str × Str)) (hvals : ∀ kv ∈ data, braceFree kv.2)
    (seg : Seg) (h : seg.wf) : (substSeg data seg).wf := by
  cases seg with
  | lit c => exact h
  | hole w =>
    cases hfind : data.find? (fun kv => decide (kv.1 = w)) with
    | some kv =>
      have hmem : kv ∈ data := List.mem_of_find?_eq_some hfind
      simpa [substSeg, Seg.wf, hfind] using hvals kv hmem
    | none => simpa [substSeg, Seg.wf, hfind] using h

/-- One `str.replace` pass on a brace-disciplined template substitutes
exactly the matching placeholder segments. -/
theorem replaceL_flats (k v : Str) (hk : braceFree k) (hv : braceFree v) :
    ∀ (L : List Seg), (∀ seg ∈ L, seg.wf) →
      replaceL ('\x7b' :: (k ++ ['\x7d'])) v (flats L)
        = flats (L.map (subst1 k v)) := by
  intro L
  induction L with
  | nil =>
    intro _
    rfl
  | cons seg L' ih =>
    intro hwf
    have hL' : ∀ s0 ∈ L', Seg.wf s0 := fun s0 hs0 => hwf s0 (List.mem_cons_of_mem seg hs0)
    cases seg with
    | lit c =>
      have hcbf : braceFree c := hwf (Seg.lit c) (List.mem_cons_self _ _)
      show replaceL ('\x7b' :: (k ++ ['\x7d'])) v (c ++ flats L')
          = flats (Seg.lit c :: L'.map (subst1 k v))
      rw [replaceL_skip_chunk k v c (flats L') hcbf.1, ih hL']
      rfl
    | hole w =>
      have hwbf : braceFree w := hwf (Seg.hole w) (List.mem_cons_self _ _)
      by_cases hkw : w = k
      · have hcond : ('\x7b' :: (k ++ ['\x7d'])) <+: ('\x7b' :: (w ++ ('\x7d' :: flats L')))
            ∧ ('\x7b' :: (k ++ ['\x7d'])) ≠ [] :=
          ⟨(placeholder_pfx_iff k w hk hwbf (flats L')).mpr hkw.symm, by simp⟩
        have hdrop : ('\x7b' :: (w ++ ('\x7d' :: flats L'))).drop
            ('\x7b' :: (k ++ ['\x7d'])).length = flats L' := by
          have h1 : '\x7b' :: (w ++ ('\x7d' :: flats L'))
              = ('\x7b' :: (w ++ ['\x7d'])) ++ flats L' := by simp
          have h2 : ('\x7b' :: (k ++ ['\x7d'])).length
              = ('\x7b' :: (w ++ ['\x7d'])).length := by simp [hkw]
          rw [h1, h2, List.drop_left]
        have hs1 : subst1 k v (Seg.hole w) = Seg.lit v := by simp [subst1, hkw]
        rw [show flats (Seg.hole w :: L') = '\x7b' :: (w ++ ('\x7d' :: flats L')) from rfl,
            replaceL_cons, if_pos hcond, hdrop, ih hL', List.map_cons, hs1]
        rfl
      · have hnp : ¬ (('\x7b' :: (k ++ ['\x7d'])) <+: ('\x7b' :: (w ++ ('\x7d' :: flats L')))
            ∧ ('\x7b' :: (k ++ ['\x7d'])) ≠ []) := by
          intro hcond
          exact hkw ((placeholder_pfx_iff k w hk hwbf (flats L')).mp hcond.1).symm
        have hbq : '\x7b' ∉ (w ++ ['\x7d']) := by
          intro hm
          rcases List.mem_append.mp hm with h1 | h2
          · exact hwbf.1 h1
          · simp at h2
        have hs1 : subst1 k v (Seg.hole w) = Seg.hole w := by simp [subst1, hkw]
        rw [show flats (Seg.hole w :: L') = '\x7b' :: (w ++ ('\x7d' :: flats L')) from rfl,
            replaceL_cons, if_neg hnp,
            show w ++ ('\x7d' :: flats L') = (w ++ ['\x7d']) ++ flats L' by simp,
            replaceL_skip_chunk k v (w ++ ['\x7d']) (flats L') hbq, ih hL',
            List.map_cons, hs1]
        simp [flats]

/-- The spec's simultaneous renderer on a brace-disciplined template
substitutes exactly the placeholder segments with keys in the data map. -/
theorem renderSpec_flats (data : List (Str × Str))
    (hkeys : ∀ kv ∈ data, braceFree kv.1) :
    ∀ (L : List Seg), (∀ seg ∈ L, seg.wf) →
      renderSpec data (flats L) = flats (L.map (substSeg data)) := by
  intro L
  induction L with
  | nil =>
    intro _
    rfl
  | cons seg L' ih =>
    intro hwf
    have hL' : ∀ s0 ∈ L', Seg.wf s0 := fun s0 hs0 => hwf s0 (List.mem_cons_of_mem seg hs0)
    cases seg with
    | lit c =>
      have hcbf : braceFree c := hwf (Seg.lit c) (List.mem_cons_self _ _)
      show renderSpec data (c ++ flats L') = flats (Seg.lit c :: L'.map (substSeg data))
      rw [renderSpec_skip_chunk data c (flats L') hcbf.1, ih hL']
      rfl
    | hole w =>
      have hwbf : braceFree w := hwf (Seg.hole w) (List.mem_cons_self _ _)
      rw [show flats (Seg.hole w :: L') = '\x7b' :: (w ++ ('\x7d' :: flats L')) from rfl,
          renderSpec_cons, specFind_hole w (flats L') hwbf data hkeys]
      cases hfind : data.find? (fun kv => decide (kv.1 = w)) with
      | some kv =>
        have hp := List.find?_some hfind
        have hk1 : kv.1 = w := of_decide_eq_true hp
        simp only []
        have hdrop : ('\x7b' :: (w ++ ('\x7d' :: flats L'))).drop (kv.1.length + 2)
            = flats L' := by
          have h1 : '\x7b' :: (w ++ ('\x7d' :: flats L'))
              = ('\x7b' :: (w ++ ['\x7d'])) ++ flats L' := by simp
          have h2 : ('\x7b' :: (w ++ ['\x7d'])).length = kv.1.length + 2 := by
            simp [hk1]
          rw [h1, ← h2, List.drop_left]
        rw [hdrop, ih hL', List.map_cons,
            show substSeg data (Seg.hole w) = Seg.lit kv.2 by simp [substSeg, hfind]]
        rfl
      | none =>
        have hbq : '\x7b' ∉ (w ++ ['\x7d']) := by
          intro hm
          rcases List.mem_append.mp hm with h1 | h2
          · exact hwbf.1 h1
          · simp at h2
        rw [show w ++ ('\x7d' :: flats L') = (w ++ ['\x7d']) ++ flats L' by simp,
            renderSpec_skip_chunk data (w ++ ['\x7d']) (flats L') hbq, ih hL',
            List.map_cons,
            show substSeg data (Seg.hole w) = Seg.hole w by simp [substSeg, hfind]]
        simp [flats]

/-- The sequential fold of `_replace_placeholders` on a brace-disciplined
template equals simultaneous segment substitution. -/
theorem replace_placeholders_flats :
    ∀ (data : List (Str × Str)), (∀ kv ∈ data, braceFree kv.1 ∧ braceFree kv.2) →
      ∀ (L : List Seg), (∀ seg ∈ L, seg.wf) →
        replace_placeholders (flats L) data = flats (L.map (substSeg data)) := by
  intro data
  induction data with
  | nil =>
    intro _ L hLw
    show flats L = flats (L.map (substSeg []))
    clear hLw
    have hmap : L.map (substSeg []) = L := by
      induction L with
      | nil => rfl
      | cons s0 t iht => simp [substSeg_nil, iht]
    rw [hmap]
  | cons kv d ih =>
    intro hdata L hL
    obtain ⟨k, v⟩ := kv
    have hk : braceFree k := (hdata (k, v) (List.mem_cons_self _ _)).1
    have hv : braceFree v := (hdata (k, v) (List.mem_cons_self _ _)).2
    have hd : ∀ x ∈ d, braceFree x.1 ∧ braceFree x.2 :=
      fun x hx => hdata x (List.mem_cons_of_mem _ hx)
    show replace_placeholders (replaceL ('\x7b' :: (k ++ ['\x7d'])) v (flats L)) d
        = flats (L.map (substSeg ((k, v) :: d)))
    rw [replaceL_flats k v hk hv L hL]
    rw [ih hd (L.map (subst1 k v))
      (fun seg hseg => by
        rw [List.mem_map] at hseg
        obtain ⟨s0, hs0, rfl⟩ := hseg
        exact subst1_wf k v hv s0 (hL s0 hs0))]
    rw [List.map_map]
    exact congrArg flats (List.map_congr_left (fun seg _ => substSeg_cons k v d seg))

/-- C5 counterexample: `_replace_placeholders` substitutes sequentially, so
with template `"{a}"` and data `{a: "{b}", b: "X"}` the occurrence of `{a}`
ends up as `"X"`, not as the string form `"{b}"` of `data["a"]` — an
occurrence of a placeholder for a present key is not simply replaced by that
key's value, and a placeholder introduced by an earlier value is substituted
rather than left alone; the spec's simultaneous reading yields `"{b}"`. -/
theorem replace_placeholders_differs_from_simultaneous :
    replace_placeholders cexTemplate cexData = ['X']
    ∧ renderSpec cexData cexTemplate = ['\x7b', 'b', '\x7d']
    ∧ replace_placeholders cexTemplate cexData ≠ renderSpec cexData cexTemplate := by
  refine ⟨by decide, by decide, by decide⟩

/-- C5 (amended): on brace-disciplined inputs — the template is a sequence of
brace-free literal chunks and `{key}` placeholders with brace-free keys, and
every key and value string in the data map is brace-free — rendering equals
the spec's simultaneous substitution: every `{key}` occurrence with `key` in
the data map becomes the value's string form, and every other character,
including `{key}` occurrences with `key` absent, is left verbatim (no error,
no default). Without the proviso, sequential replacement diverges (values
containing placeholders are substituted recursively). -/
theorem replace_placeholders_simultaneous_on_disciplined
    (data : List (Str × Str)) (L : List Seg)
    (hdata : ∀ kv ∈ data, braceFree kv.1 ∧ braceFree kv.2)
    (hL : ∀ seg ∈ L, seg.wf) :
    replace_placeholders (flats L) data = renderSpec data (flats L) := by
  rw [replace_placeholders_flats data hdata L hL,
      renderSpec_flats data (fun kv hkv => (hdata kv hkv).1) L hL]

/-- C5 amended-claim witness at concrete inputs: template `Hi {n}!` and data
`{n: "Bob"}` render identically under the source fold and the simultaneous
spec renderer. -/
theorem replace_placeholders_simultaneous_on_disciplined_witness :
    replace_placeholders (flats segsEx) dataEx = renderSpec dataEx (flats segsEx) :=
  replace_placeholders_simultaneous_on_disciplined dataEx segsEx (by decide) (by decide)

/-- C6 counterexample: with template `"{a}"` and data `{b: "c", a: "{b}"}`
(insertion order `b` first), one rendering yields `"{b}"` but rendering that
output again yields `"c"` — the renderer is not idempotent for all inputs,
because a substituted value may itself contain a placeholder that the next
pass consumes. -/
theorem replace_placeholders_not_idempotent :
    replace_placeholders cexTemplate cex6Data = ['\x7b', 'b', '\x7d']
    ∧ replace_placeholders (replace_placeholders cexTemplate cex6Data) cex6Data = ['c']
    ∧ replace_placeholders (replace_placeholders cexTemplate cex6Data) cex6Data
        ≠ replace_placeholders cexTemplate cex6Data := by
  refine ⟨by decide, by decide, by decide⟩

/-- C6 (amended): on brace-disciplined inputs (as in the amended C5),
rendering is idempotent — rendering the rendered output again with the same
data map returns it unchanged; without the proviso, a value containing a
placeholder breaks idempotence. -/
theorem replace_placeholders_idempotent_on_disciplined
    (data : List (Str × Str)) (L : List Seg)
    (hdata : ∀ kv ∈ data, braceFree kv.1 ∧ braceFree kv.2)
    (hL : ∀ seg ∈ L, seg.wf) :
    replace_placeholders (replace_placeholders (flats L) data) data
      = replace_placeholders (flats L) data := by
  rw [replace_placeholders_flats data hdata L hL]
  have hL' : ∀ seg ∈ L.map (substSeg data), seg.wf := by
    intro seg hseg
    rw [List.mem_map] at hseg
    obtain ⟨s0, hs0, rfl⟩ := hseg
    exact substSeg_wf data (fun kv hkv => (hdata kv hkv).2) s0 (hL s0 hs0)
  rw [replace_placeholders_flats data hdata (L.map (substSeg data)) hL']
  rw [List.map_map]
  exact congrArg flats (List.map_congr_left (fun seg _ => substSeg_idem data seg))

/-- C6 amended-claim witness at concrete inputs: rendering `Hi {n}!` with
`{n: "Bob"}` twice equals rendering it once. -/
theorem replace_placeholders_idempotent_on_disciplined_witness :
    replace_placeholders (replace_placeholders (flats segsEx) dataEx) dataEx
      = replace_placeholders (flats segsEx) dataEx :=
  replace_placeholders_idempotent_on_disciplined dataEx segsEx (by decide) (by decide)

end Msvc
